import Mathlib

/-!
Verification of the mcp-trader gateway core (router, schema normalizer, cache)
against its natural-language specification.

The Python sources are shallowly embedded:
- Python JSON-like values (the string-keyed dicts passed between components)
  become the inductive type `JVal`; Python numbers (int and float) are both
  modelled as rationals, so all formula claims are settled over exact
  arithmetic.
- Python dicts become insertion-ordered association lists
  (`List (String × JVal)`); `d[k] = v` replaces the value in place when the
  key exists and appends otherwise, matching CPython's ordered dicts.
- Fallible code (`float(...)` coercions, `raise ValueError`) returns
  `Except String`.
- Wall-clock reads (`time.time()`) become explicit `now` parameters.
-/

namespace McpGateway

/-- JSON-like values exchanged between the gateway components. -/
inductive JVal : Type where
  | str (s : String) : JVal
  | num (q : ℚ) : JVal
  | bool (b : Bool) : JVal
  | list (xs : List JVal) : JVal
  | obj (fields : List (String × JVal)) : JVal

/-- A Python dict: an insertion-ordered association list. -/
abbrev JObj : Type := List (String × JVal)

/-- `d.get(k)`: first value stored under `k`, if any. -/
def jLookup (o : JObj) (k : String) : Option JVal :=
  match o with
  | [] => none
  | (k', v) :: rest => if k' = k then some v else jLookup rest k

/-- `d.get(k, default)`. -/
def jGetD (o : JObj) (k : String) (d : JVal) : JVal :=
  (jLookup o k).getD d

/-- `k in d`. -/
def jHas (o : JObj) (k : String) : Bool :=
  (jLookup o k).isSome

/-- `d[k] = v`: replace in place when present, append otherwise. -/
def jAssign (o : JObj) (k : String) (v : JVal) : JObj :=
  match o with
  | [] => [(k, v)]
  | (k', v') :: rest =>
      if k' = k then (k', v) :: rest else (k', v') :: jAssign rest k v

/-- `del d[k]` / `d.pop(k)`: drop the key. -/
def jErase (o : JObj) (k : String) : JObj :=
  o.filter (fun kv => kv.1 ≠ k)

/-- `d.update(other)`: assign every pair of `other`, in order. -/
def jUpdate (o : JObj) (other : JObj) : JObj :=
  other.foldl (fun d kv => jAssign d kv.1 kv.2) o

/-- Python truthiness of a JSON value (`bool(x)`). -/
def jTruthy : JVal → Bool
  | .str s => if s = "" then false else true
  | .num q => if q = 0 then false else true
  | .bool b => b
  | .list xs => !xs.isEmpty
  | .obj fs => !fs.isEmpty

/-- Truthiness of a possibly-missing value (`not d.get(k)` sees `None` as falsy). -/
def jTruthyOpt : Option JVal → Bool
  | none => false
  | some v => jTruthy v

/-- Value of a run of decimal digits, `none` when a non-digit appears. -/
def digitsVal : List Char → Option ℕ
  | [] => some 0
  | c :: cs =>
      if c.isDigit then
        (digitsVal cs).map (fun n => (c.toNat - '0'.toNat) * 10 ^ cs.length + n)
      else none

/-- Parse an unsigned decimal literal `digits[.digits]` (at least one digit). -/
def parseUnsigned (cs : List Char) : Option ℚ :=
  match cs.splitOn '.' with
  | [intPart] =>
      if intPart = [] then none
      else (digitsVal intPart).map (fun n => (n : ℚ))
  | [intPart, fracPart] =>
      if intPart = [] ∧ fracPart = [] then none
      else
        match digitsVal intPart, digitsVal fracPart with
        | some i, some f => some ((i : ℚ) + (f : ℚ) / 10 ^ fracPart.length)
        | _, _ => none
  | _ => none

/-- Parse a signed decimal literal, the shapes `float(str)` accepts in the
payloads of this repository (plain decimal notation, optional sign). -/
def parseDecimal (s : String) : Option ℚ :=
  match s.toList with
  | '-' :: rest => (parseUnsigned rest).map (fun q => -q)
  | '+' :: rest => parseUnsigned rest
  | cs => parseUnsigned cs

/-- Python `float(x)` on a JSON value (fails on lists/dicts and bad strings). -/
def jToNum : JVal → Option ℚ
  | .num q => some q
  | .bool b => some (if b then 1 else 0)
  | .str s => parseDecimal s
  | _ => none

/-- Truncation toward zero, the semantics of Python `int(float)`. -/
def ratTrunc (q : ℚ) : ℤ :=
  if 0 ≤ q then ⌊q⌋ else -⌊-q⌋

/-- Parse a signed integer literal, as `int(str)` does. -/
def parseInt (s : String) : Option ℤ :=
  match s.toList with
  | '-' :: rest => if rest = [] then none else (digitsVal rest).map (fun n => -(n : ℤ))
  | cs => if cs = [] then none else (digitsVal cs).map (fun n => (n : ℤ))

/-- Python `int(x)` on a JSON value. -/
def jToInt : JVal → Option ℤ
  | .num q => some (ratTrunc q)
  | .bool b => some (if b then 1 else 0)
  | .str s => parseInt s
  | _ => none

/-- Python `str(x)` restricted to the value shapes that reach it in this code
(strings and integer ids); other shapes are rejected rather than printed. -/
def jToStr : JVal → Option String
  | .str s => some s
  | .num q => if q.den = 1 then some (toString q.num) else none
  | .bool b => some (if b then "True" else "False")
  | _ => none

example : parseDecimal "43250.50" = some (43250 + 1/2 : ℚ) := by with_unfolding_all rfl
example : parseDecimal "-1" = some (-1 : ℚ) := rfl
example : parseDecimal "" = none := rfl
example : jLookup (jAssign [("a", .num 1)] "a" (.num 2)) "a" = some (.num 2) := rfl

/-! ## Fallible dict access, as the Python adapter uses it -/

/-- `raw[k]`: `KeyError` when the key is absent. -/
def jReq (o : JObj) (k : String) : Except String JVal :=
  match jLookup o k with
  | some v => .ok v
  | none => .error ("KeyError: " ++ k)

/-- `float(raw[k])`: required key coerced to a number. -/
def jReqNum (o : JObj) (k : String) : Except String ℚ :=
  match jLookup o k with
  | some v =>
      match jToNum v with
      | some q => .ok q
      | none => .error ("could not convert to float: " ++ k)
  | none => .error ("KeyError: " ++ k)

/-- `float(raw.get(k, d))` with numeric default `d`. -/
def jNumD (o : JObj) (k : String) (d : ℚ) : Except String ℚ :=
  match jLookup o k with
  | none => .ok d
  | some v =>
      match jToNum v with
      | some q => .ok q
      | none => .error ("could not convert to float: " ++ k)

/-- `str(raw[k])`: required key passed through `str()`. -/
def jReqStr (o : JObj) (k : String) : Except String String :=
  match jLookup o k with
  | some v =>
      match jToStr v with
      | some s => .ok s
      | none => .error ("unsupported str() shape: " ++ k)
  | none => .error ("KeyError: " ++ k)

/-- `if k in raw: dst[k2] = float(raw[k])`. -/
def jCopyNum (o : JObj) (k : String) (dst : JObj) (k2 : String) : Except String JObj :=
  match jLookup o k with
  | none => .ok dst
  | some v =>
      match jToNum v with
      | some q => .ok (jAssign dst k2 (.num q))
      | none => .error ("could not convert to float: " ++ k)

/-- `if k in raw: dst[k2] = raw[k]` (value copied without coercion). -/
def jCopyRaw (o : JObj) (k : String) (dst : JObj) (k2 : String) : JObj :=
  match jLookup o k with
  | none => dst
  | some v => jAssign dst k2 v

/-!
## Schema normalizers (`mcp_gateway/adapters/schema_adapter.py`)

Each per-type transform takes the raw payload and the wall clock
(`int(time.time() * 1000)` is passed in as `now`), and returns the
normalized dict paired with an aliasing flag: `true` exactly when the
Python function returns the `raw` object itself (`return raw`), so the
caller's payload and the result are one and the same mutable dict.  Every
transform that builds a fresh dict literal returns `false`.
-/

/-- `SchemaAdapter._normalize_binance_ticker`. -/
def normalizeBinanceTicker (raw : JVal) (now : ℤ) : Except String (JObj × Bool) :=
  match raw with
  | .obj o => do
      let bid ← jReqNum o "bidPrice"
      let ask ← jReqNum o "askPrice"
      let mid := (bid + ask) / 2
      let spreadBps := if mid > 0 then ((ask - bid) / mid) * 10000 else 0
      let volume ← jReqNum o "volume"
      let symbol ← jReq o "symbol"
      let normalized : JObj :=
        [("bid", .num bid), ("ask", .num ask), ("mid", .num mid),
         ("spread_bps", .num spreadBps), ("volume", .num volume),
         ("timestamp", jGetD o "closeTime" (.num (now : ℚ))),
         ("venue_symbol", symbol)]
      let normalized ← jCopyNum o "lastPrice" normalized "last"
      let normalized ← jCopyNum o "quoteVolume" normalized "quote_volume"
      let normalized ← jCopyNum o "priceChangePercent" normalized "price_change_percent"
      .ok (normalized, false)
  | _ => .error "ticker payload is not a dict"

/-- `SchemaAdapter._normalize_binance_orderbook_l1`.  `spread_bps`,
`microprice`, `imbalance` and `timestamp` are copied from the raw payload
as-is via `raw.get(...)`; in particular `imbalance` is the provider's
`imbalance_ratio` with default `0.0`, not a computed quantity ratio. -/
def normalizeBinanceOrderbookL1 (raw : JVal) (now : ℤ) : Except String (JObj × Bool) :=
  match raw with
  | .obj o =>
      if !(jHas o "best_bid") || !(jHas o "best_ask") then
        .error "Invalid orderbook: missing best_bid or best_ask"
      else do
        let bestBid ← jReqNum o "best_bid"
        let bestAsk ← jReqNum o "best_ask"
        let normalized : JObj :=
          [("best_bid", .num bestBid), ("best_ask", .num bestAsk),
           ("spread_bps", jGetD o "spread_bps" (.num 0)),
           ("microprice", jGetD o "microprice" (.num ((bestBid + bestAsk) / 2))),
           ("imbalance", jGetD o "imbalance_ratio" (.num 0)),
           ("timestamp", jGetD o "timestamp" (.num (now : ℚ)))]
        let normalized := jCopyRaw o "symbol" normalized "venue_symbol"
        let normalized := jCopyRaw o "bid_volume" normalized "bid_volume"
        let normalized := jCopyRaw o "ask_volume" normalized "ask_volume"
        .ok (normalized, false)
  | _ => .error "orderbook payload is not a dict"

/-- One `{"price": float(level[0]), "quantity": float(level[1])}` step of
the L2 list comprehensions. -/
def normalizeLevel (level : JVal) : Except String (ℚ × ℚ) :=
  match level with
  | .list (p :: q :: _) =>
      match jToNum p, jToNum q with
      | some pq, some qq => .ok (pq, qq)
      | _, _ => .error "level price/quantity not numeric"
  | _ => .error "level is not an indexable pair"

/-- The L2 list comprehension over one side of the book. -/
def normalizeLevels : List JVal → Except String (List (ℚ × ℚ))
  | [] => .ok []
  | l :: rest => do
      let x ← normalizeLevel l
      let xs ← normalizeLevels rest
      .ok (x :: xs)

/-- Render one normalized level back as the JSON object the source builds. -/
def levelObj (pq : ℚ × ℚ) : JVal :=
  .obj [("price", .num pq.1), ("quantity", .num pq.2)]

/-- `SchemaAdapter._normalize_binance_orderbook_l2`. -/
def normalizeBinanceOrderbookL2 (raw : JVal) (now : ℤ) : Except String (JObj × Bool) :=
  match raw with
  | .obj o =>
      if !(jTruthyOpt (jLookup o "bids")) || !(jTruthyOpt (jLookup o "asks")) then
        .error "Invalid orderbook: missing bids or asks"
      else
        match jLookup o "bids", jLookup o "asks" with
        | some (.list rawBids), some (.list rawAsks) => do
            let bids ← normalizeLevels rawBids
            let asks ← normalizeLevels rawAsks
            match bids, asks with
            | (bidPrice, _) :: _, (askPrice, _) :: _ =>
                let mid := (bidPrice + askPrice) / 2
                let spreadBps := if mid > 0 then ((askPrice - bidPrice) / mid) * 10000 else 0
                let normalized : JObj :=
                  [("bids", .list (bids.map levelObj)),
                   ("asks", .list (asks.map levelObj)),
                   ("mid", .num mid), ("spread_bps", .num spreadBps),
                   ("timestamp", .num (now : ℚ))]
                let normalized := jCopyRaw o "lastUpdateId" normalized "update_id"
                .ok (normalized, false)
            | _, _ => .error "IndexError: empty orderbook side"
        | _, _ => .error "bids/asks are not lists"
  | _ => .error "orderbook payload is not a dict"

/-- `int(kline[i]) if len(kline) > i else 0`. -/
def jIdxInt (l : List JVal) (i : ℕ) : Except String ℤ :=
  match l.get? i with
  | none => .ok 0
  | some v =>
      match jToInt v with
      | some n => .ok n
      | none => .error "int() failed on kline field"

/-- `float(kline[i]) if len(kline) > i else 0.0`. -/
def jIdxNum (l : List JVal) (i : ℕ) : Except String ℚ :=
  match l.get? i with
  | none => .ok 0
  | some v =>
      match jToNum v with
      | some q => .ok q
      | none => .error "float() failed on kline field"

/-- One iteration of `_normalize_binance_klines`' loop: list-shaped and
dict-shaped entries are normalized, entries of any other shape are skipped
(the source has no else branch). -/
def normalizeKline (kline : JVal) : Except String (Option JVal) :=
  match kline with
  | .list l => do
      let openTime ← jIdxInt l 0
      let openP ← jIdxNum l 1
      let highP ← jIdxNum l 2
      let lowP ← jIdxNum l 3
      let closeP ← jIdxNum l 4
      let volume ← jIdxNum l 5
      let closeTime ← jIdxInt l 6
      .ok (some (.obj
        [("open_time", .num (openTime : ℚ)), ("open", .num openP),
         ("high", .num highP), ("low", .num lowP), ("close", .num closeP),
         ("volume", .num volume), ("close_time", .num (closeTime : ℚ))]))
  | .obj ko => do
      let openP ← jNumD ko "open" 0
      let highP ← jNumD ko "high" 0
      let lowP ← jNumD ko "low" 0
      let closeP ← jNumD ko "close" 0
      let volume ← jNumD ko "volume" 0
      .ok (some (.obj
        [("open_time", jGetD ko "open_time" (jGetD ko "openTime" (.num 0))),
         ("open", .num openP), ("high", .num highP), ("low", .num lowP),
         ("close", .num closeP), ("volume", .num volume),
         ("close_time", jGetD ko "close_time" (jGetD ko "closeTime" (.num 0)))]))
  | _ => .ok none

/-- The loop of `_normalize_binance_klines`. -/
def normalizeKlineList : List JVal → Except String (List JVal)
  | [] => .ok []
  | k :: rest => do
      let x ← normalizeKline k
      let xs ← normalizeKlineList rest
      .ok (match x with | some v => v :: xs | none => xs)

/-- `SchemaAdapter._normalize_binance_klines`. -/
def normalizeBinanceKlines (raw : JVal) (_now : ℤ) : Except String (JObj × Bool) := do
  let klinesData ←
    match raw with
    | .list xs => .ok xs
    | .obj o =>
        match jGetD o "klines" (jGetD o "data" (.list [])) with
        | .list xs => .ok xs
        | _ => .error "klines payload is not iterable"
    | _ => .error "AttributeError: payload has no get"
  let normalizedKlines ← normalizeKlineList klinesData
  let normalized : JObj := [("klines", .list normalizedKlines)]
  let normalized :=
    match raw with
    | .obj o => jCopyRaw o "symbol" (jCopyRaw o "interval" normalized "interval") "venue_symbol"
    | _ => normalized
  .ok (normalized, false)

/-- `SchemaAdapter._normalize_binance_order`. -/
def normalizeBinanceOrder (raw : JVal) (now : ℤ) : Except String (JObj × Bool) :=
  match raw with
  | .obj o => do
      let origQty ← jNumD o "origQty" 0
      let executedQty ← jNumD o "executedQty" 0
      let orderId ← jReqStr o "orderId"
      let symbol ← jReq o "symbol"
      let side ← jReq o "side"
      let typ ← jReq o "type"
      let status ← jReq o "status"
      let normalized : JObj :=
        [("order_id", .str orderId), ("instrument", symbol), ("side", side),
         ("type", typ), ("status", status), ("quantity", .num origQty),
         ("filled_quantity", .num executedQty),
         ("remaining_quantity", .num (origQty - executedQty)),
         ("timestamp", jGetD o "transactTime" (.num (now : ℚ)))]
      let normalized := jCopyRaw o "clientOrderId" normalized "client_order_id"
      let normalized ← jCopyNum o "price" normalized "price"
      let normalized ←
        match jLookup o "avgPrice" with
        | none => .ok normalized
        | some (.str "0.0") => .ok normalized
        | some v =>
            match jToNum v with
            | some q => .ok (jAssign normalized "average_price" (.num q))
            | none => .error "could not convert to float: avgPrice"
      let normalized := jCopyRaw o "timeInForce" normalized "time_in_force"
      .ok (normalized, false)
  | _ => .error "order payload is not a dict"

/-- The `{asset, free, locked, total}` object appended by the balance loop
(`total = free + locked`). -/
def mkBalance (asset : JVal) (free locked : ℚ) : JVal :=
  .obj [("asset", asset), ("free", .num free), ("locked", .num locked),
        ("total", .num (free + locked))]

/-- The balance loop of `_normalize_binance_account`: parse `free`/`locked`,
append `{asset, free, locked, total}` only when `total > 0`. -/
def normalizeBalances : List JVal → Except String (List JVal)
  | [] => .ok []
  | b :: rest =>
      match b with
      | .obj bo => do
          let free ← jReqNum bo "free"
          let locked ← jReqNum bo "locked"
          let total := free + locked
          if total > 0 then do
            let asset ← jReq bo "asset"
            let xs ← normalizeBalances rest
            .ok (mkBalance asset free locked :: xs)
          else normalizeBalances rest
      | _ => .error "balance entry is not a dict"

/-- `SchemaAdapter._normalize_binance_account`. -/
def normalizeBinanceAccount (raw : JVal) (now : ℤ) : Except String (JObj × Bool) :=
  match raw with
  | .obj o => do
      let balancesRaw ←
        match jGetD o "balances" (.list []) with
        | .list xs => Except.ok xs
        | _ => .error "balances is not a list"
      let balances ← normalizeBalances balancesRaw
      .ok ([("can_trade", jGetD o "canTrade" (.bool false)),
            ("can_withdraw", jGetD o "canWithdraw" (.bool false)),
            ("can_deposit", jGetD o "canDeposit" (.bool false)),
            ("balances", .list balances),
            ("timestamp", jGetD o "updateTime" (.num (now : ℚ)))], false)
  | _ => .error "account payload is not a dict"

/-- `SchemaAdapter._normalize_binance_trade` (single my-trade record):
`side = "BUY" if raw.get("isBuyer", False) else "SELL"`. -/
def normalizeBinanceTrade (raw : JVal) (_now : ℤ) : Except String (JObj × Bool) :=
  match raw with
  | .obj o => do
      let tradeId ← jReqStr o "id"
      let orderId ← jReqStr o "orderId"
      let symbol ← jReq o "symbol"
      let price ← jReqNum o "price"
      let qty ← jReqNum o "qty"
      let quoteQty ← jReqNum o "quoteQty"
      let fee ← jNumD o "commission" 0
      let timestamp ← jReq o "time"
      .ok ([("trade_id", .str tradeId), ("order_id", .str orderId),
            ("instrument", symbol),
            ("side", .str (if jTruthy (jGetD o "isBuyer" (.bool false)) then "BUY" else "SELL")),
            ("price", .num price), ("quantity", .num qty),
            ("quote_quantity", .num quoteQty), ("fee", .num fee),
            ("fee_asset", jGetD o "commissionAsset" (.str "")),
            ("timestamp", timestamp)], false)
  | _ => .error "trade payload is not a dict"

/-- One filter entry of `_normalize_binance_exchange_info`'s loop. -/
def applyFilter (normalized : JObj) (filterItem : JVal) : Except String JObj :=
  match filterItem with
  | .obj fo =>
      match jLookup fo "filterType" with
      | some (.str "PRICE_FILTER") => do
          let minP ← jNumD fo "minPrice" 0
          let maxP ← jNumD fo "maxPrice" 0
          let tick ← jNumD fo "tickSize" 0
          .ok (jAssign (jAssign (jAssign normalized "min_price" (.num minP))
                "max_price" (.num maxP)) "price_tick_size" (.num tick))
      | some (.str "LOT_SIZE") => do
          let minQ ← jNumD fo "minQty" 0
          let maxQ ← jNumD fo "maxQty" 0
          let step ← jNumD fo "stepSize" 0
          .ok (jAssign (jAssign (jAssign normalized "min_quantity" (.num minQ))
                "max_quantity" (.num maxQ)) "quantity_step_size" (.num step))
      | _ => .ok normalized
  | _ => .error "filter entry has no get"

/-- The filter loop of `_normalize_binance_exchange_info`. -/
def applyFilters (normalized : JObj) : List JVal → Except String JObj
  | [] => .ok normalized
  | f :: rest => do
      let n ← applyFilter normalized f
      applyFilters n rest

/-- `SchemaAdapter._normalize_binance_exchange_info`. -/
def normalizeBinanceExchangeInfo (raw : JVal) (_now : ℤ) : Except String (JObj × Bool) :=
  match raw with
  | .obj o => do
      let symbol ← jReq o "symbol"
      let status ← jReq o "status"
      let base ← jReq o "baseAsset"
      let quote ← jReq o "quoteAsset"
      let normalized : JObj :=
        [("instrument", symbol), ("status", status),
         ("base_asset", base), ("quote_asset", quote)]
      let filtersRaw ←
        match jGetD o "filters" (.list []) with
        | .list xs => Except.ok xs
        | _ => .error "filters is not a list"
      let normalized ← applyFilters normalized filtersRaw
      .ok (normalized, false)
  | _ => .error "exchange info payload is not a dict"

/-- One iteration of `_normalize_binance_recent_trades`' loop:
`side = "SELL" if trade.get("isBuyerMaker", False) else "BUY"`. -/
def normalizeRecentTrade (trade : JVal) : Except String JVal :=
  match trade with
  | .obj t => do
      let tradeId ← jReqStr t "id"
      let price ← jReqNum t "price"
      let qty ← jReqNum t "qty"
      let quoteQty ← jNumD t "quoteQty" 0
      let timestamp ← jReq t "time"
      .ok (.obj [("trade_id", .str tradeId), ("price", .num price),
                 ("quantity", .num qty), ("quote_quantity", .num quoteQty),
                 ("side", .str (if jTruthy (jGetD t "isBuyerMaker" (.bool false))
                                then "SELL" else "BUY")),
                 ("timestamp", timestamp)])
  | _ => .error "trade entry is not a dict"

/-- The loop of `_normalize_binance_recent_trades`. -/
def normalizeRecentTradeList : List JVal → Except String (List JVal)
  | [] => .ok []
  | t :: rest => do
      let x ← normalizeRecentTrade t
      let xs ← normalizeRecentTradeList rest
      .ok (x :: xs)

/-- `SchemaAdapter._normalize_binance_recent_trades`: a non-list payload is
wrapped as a one-element list (`raw if isinstance(raw, list) else [raw]`). -/
def normalizeBinanceRecentTrades (raw : JVal) (_now : ℤ) : Except String (JObj × Bool) := do
  let tradesList :=
    match raw with
    | .list xs => xs
    | v => [v]
  let trades ← normalizeRecentTradeList tradesList
  .ok ([("trades", .list trades)], false)

/-- `SchemaAdapter._normalize_binance_orderbook_health`. -/
def normalizeBinanceOrderbookHealth (raw : JVal) (_now : ℤ) : Except String (JObj × Bool) :=
  match raw with
  | .obj o => do
      let sq ← jNumD o "spread_quality" 0
      let di ← jNumD o "depth_imbalance" (1/2)
      let hs ← jNumD o "health_score" 0
      let bd ← jNumD o "bid_depth" 0
      let ad ← jNumD o "ask_depth" 0
      .ok ([("spread_quality", .num sq), ("depth_imbalance", .num di),
            ("health_score", .num hs), ("bid_depth", .num bd),
            ("ask_depth", .num ad)], false)
  | _ => .error "orderbook health payload is not a dict"

/-- `SchemaAdapter._normalize_binance_volume_profile` is `return raw`: the
returned dict is the caller's `raw` object itself, recorded by the `true`
aliasing flag.  (Non-dict payloads are rejected here; in the source they
fail later, inside `normalize`'s post-processing.) -/
def normalizeBinanceVolumeProfile (raw : JVal) (_now : ℤ) : Except String (JObj × Bool) :=
  match raw with
  | .obj o => .ok (o, true)
  | _ => .error "volume profile payload is not a dict"

/-- `SchemaAdapter._normalize_binance_market_anomalies` is `return raw`. -/
def normalizeBinanceMarketAnomalies (raw : JVal) (_now : ℤ) : Except String (JObj × Bool) :=
  match raw with
  | .obj o => .ok (o, true)
  | _ => .error "market anomalies payload is not a dict"

/-- `SchemaAdapter._normalize_binance_microstructure_health` is `return raw`. -/
def normalizeBinanceMicrostructureHealth (raw : JVal) (_now : ℤ) : Except String (JObj × Bool) :=
  match raw with
  | .obj o => .ok (o, true)
  | _ => .error "microstructure health payload is not a dict"

/-- First-match association lookup (Python `dict[key]` membership order is
irrelevant for dicts, but this also models iteration-order lookups). -/
def tableLookup {α : Type _} (k : String) : List (String × α) → Option α
  | [] => none
  | (k', v) :: rest => if k' = k then some v else tableLookup k rest

/-- The `"binance"` entry of `SchemaAdapter._normalizers`, in source order. -/
def binanceNormalizers : List (String × (JVal → ℤ → Except String (JObj × Bool))) :=
  [("ticker", normalizeBinanceTicker),
   ("orderbook_l1", normalizeBinanceOrderbookL1),
   ("orderbook_l2", normalizeBinanceOrderbookL2),
   ("klines", normalizeBinanceKlines),
   ("order", normalizeBinanceOrder),
   ("account", normalizeBinanceAccount),
   ("trade", normalizeBinanceTrade),
   ("exchange_info", normalizeBinanceExchangeInfo),
   ("recent_trades", normalizeBinanceRecentTrades),
   ("orderbook_health", normalizeBinanceOrderbookHealth),
   ("volume_profile", normalizeBinanceVolumeProfile),
   ("market_anomalies", normalizeBinanceMarketAnomalies),
   ("microstructure_health", normalizeBinanceMicrostructureHealth)]

/-- `SchemaAdapter.normalize`.  Returns the normalized dict together with
the value of the `raw_response` argument after the call: when the selected
transform returned `raw` itself, the post-processing (`update` with
`additional_fields`, venue injection) mutates the caller's payload, so the
second component is the post-processed object; otherwise it is `raw`
unchanged. -/
def normalize (venue dataType : String) (raw : JVal)
    (additionalFields : JObj) (now : ℤ) : Except String (JObj × JVal) :=
  if venue = "binance" then
    match tableLookup dataType binanceNormalizers with
    | none => .error ("No normalizer available for " ++ venue ++ "." ++ dataType)
    | some normalizer =>
        match normalizer raw now with
        | .error e =>
            .error ("Normalization failed for " ++ venue ++ "." ++ dataType ++ ": " ++ e)
        | .ok (n, aliased) =>
            let n := if additionalFields.isEmpty then n else jUpdate n additionalFields
            let n := if jHas n "venue" then n else jAssign n "venue" (.str venue)
            .ok (n, if aliased then .obj n else raw)
  else .error ("No normalizer available for venue " ++ venue)

/-!
## Unified router (`mcp_gateway/adapters/unified_router.py`) and the venue
constants of `mcp_gateway/config.py`
-/

/-- `config.VENUE_MAPPING`: public venue name → internal provider id. -/
def VENUE_MAPPING : List (String × String) := [("binance", "binance")]

/-- `config.PUBLIC_VENUES = list(VENUE_MAPPING.keys())`. -/
def PUBLIC_VENUES : List String := VENUE_MAPPING.map Prod.fst

/-- `UnifiedToolRouter._build_tool_mapping()` (feature 018: only the unified
market report tool remains). -/
def toolMapping : List (String × String) :=
  [("market.generate_report", "{venue}.generate_market_report")]

/-- The slice of a `ProviderGRPCClient` the router interacts with: the
health flag read by `is_healthy()`, and the outcome of `invoke` as a
function of the provider tool name and payload.  `invoke` either raises
(`.error`, a gRPC failure) or returns a dict holding a `result` or an
`error` key. -/
structure ProviderClient where
  healthy : Bool
  invokeResult : String → JObj → Except String JObj

/-- The error kinds `route_tool_call` raises, in the taxonomy of the spec:
the first three are validation failures raised before any provider call,
`invocationFailed` wraps an exception from `invoke` (the source's
`RuntimeError`). -/
inductive RouteError : Type where
  | unknownVenue (venue : JVal) (available : List String)
  | providerNotConfigured (venue : String)
  | unsupportedTool (tool : String) (supported : List String)
  | invocationFailed (venue providerTool cause : String)
  | internalKeyError (key : String)

/-- The argument rewriting step of `route_tool_call`: drop `venue`, then
rename `instrument` to `symbol` (`provider_arguments["symbol"] =
provider_arguments.pop("instrument")`). -/
def rewriteArgs (arguments : JObj) : JObj :=
  let providerArguments := arguments.filter (fun kv => kv.1 ≠ "venue")
  match jLookup providerArguments "instrument" with
  | some v => jAssign (jErase providerArguments "instrument") "symbol" v
  | none => providerArguments

/-- The validation and rewriting prefix of `route_tool_call`, everything up
to (but excluding) the `client.invoke` call.  Returns the resolved public
venue, the chosen client, the provider tool name and the rewritten payload.
The unhealthy-client branch only logs a warning in the source and is
behaviourally inert (fail-open), so it does not appear here. -/
def routeDecision (providerClients : List (String × ProviderClient))
    (unifiedToolName : String) (arguments : JObj) :
    Except RouteError (String × ProviderClient × String × JObj) :=
  match jGetD arguments "venue" (.str "binance") with
  | .str venue =>
      if venue ∈ PUBLIC_VENUES then
        match tableLookup venue VENUE_MAPPING with
        | none => .error (.internalKeyError venue)
        | some providerId =>
            match tableLookup providerId providerClients with
            | none => .error (.providerNotConfigured venue)
            | some client =>
                match tableLookup unifiedToolName toolMapping with
                | none => .error (.unsupportedTool unifiedToolName (toolMapping.map Prod.fst))
                | some pattern =>
                    .ok (venue, client,
                         pattern.replace "{venue}" providerId, rewriteArgs arguments)
      else .error (.unknownVenue (.str venue) PUBLIC_VENUES)
  | v => .error (.unknownVenue v PUBLIC_VENUES)

/-- `UnifiedToolRouter.route_tool_call`.  The measured wall-clock latency is
supplied as `latencyMs`.  Besides the result (or typed error), the list of
`invoke` calls actually issued — each as (provider tool name, payload) — is
returned, so "the provider is never called" is expressible. -/
def routeToolCall (providerClients : List (String × ProviderClient))
    (unifiedToolName : String) (arguments : JObj) (latencyMs : ℚ) :
    Except RouteError JObj × List (String × JObj) :=
  match routeDecision providerClients unifiedToolName arguments with
  | .error e => (.error e, [])
  | .ok (venue, client, providerToolName, payload) =>
      match client.invokeResult providerToolName payload with
      | .error cause =>
          (.error (.invocationFailed venue providerToolName cause),
           [(providerToolName, payload)])
      | .ok result =>
          let result :=
            if jHas result "result" then
              let result :=
                match jLookup result "result" with
                | some (.obj ro) =>
                    jAssign result "result"
                      (.obj (jAssign (jAssign ro "latency_ms" (.num latencyMs))
                             "venue" (.str venue)))
                | _ => result
              jAssign result "routing_info"
                (.obj [("unified_tool", .str unifiedToolName),
                       ("provider_tool", .str providerToolName),
                       ("venue", .str venue),
                       ("latency_ms", .num latencyMs)])
            else result
          (.ok result, [(providerToolName, payload)])

/-!
## Cache (`mcp_gateway/cache.py`)

Timestamps are `time.time()` floats, modelled as rationals; the wall clock
is passed in as `now`.
-/

/-- `CacheEntry`. -/
structure CacheEntry where
  data : JVal
  timestamp : ℚ

/-- `SimpleCache` state: default TTL, the per-tool TTL table in insertion
order, and the stored entries in insertion order. -/
structure SimpleCache where
  default_ttl : ℚ
  tool_ttls : List (String × ℚ)
  cache : List (String × CacheEntry)

/-- `needle in hay` for strings: contiguous substring test. -/
def charsLeadMatch : List Char → List Char → Bool
  | [], _ => true
  | _ :: _, [] => false
  | a :: as, b :: bs => a = b && charsLeadMatch as bs

/-- Substring occurrence over character lists. -/
def charsHaveSub (needle : List Char) : List Char → Bool
  | [] => charsLeadMatch needle []
  | c :: rest => charsLeadMatch needle (c :: rest) || charsHaveSub needle rest

/-- `needle in hay` (Python substring containment). -/
def strHasSub (needle hay : String) : Bool :=
  charsHaveSub needle.toList hay.toList

/-- `SimpleCache._get_ttl_for_key`: the FIRST table entry (in insertion
order) whose pattern occurs in the key wins; the default TTL applies when
no pattern matches. -/
def getTtlForKey (c : SimpleCache) (key : String) : ℚ :=
  match c.tool_ttls.find? (fun pt => strHasSub pt.1 key) with
  | some pt => pt.2
  | none => c.default_ttl

/-- Entry lookup in the stored map. -/
def cacheFind (c : SimpleCache) (key : String) : Option CacheEntry :=
  tableLookup key c.cache

/-- `SimpleCache.get`: expired entries (age strictly above the resolved
TTL) are evicted and reported absent. -/
def cacheGet (c : SimpleCache) (key : String) (now : ℚ) :
    Option JVal × SimpleCache :=
  match cacheFind c key with
  | none => (none, c)
  | some entry =>
      let ttl := getTtlForKey c key
      if now - entry.timestamp > ttl then
        (none, { c with cache := c.cache.filter (fun kv => kv.1 ≠ key) })
      else (some entry.data, c)

/-- Ordered-dict assignment for the stored entry map. -/
def entryAssign (m : List (String × CacheEntry)) (k : String) (e : CacheEntry) :
    List (String × CacheEntry) :=
  match m with
  | [] => [(k, e)]
  | (k', e') :: rest => if k' = k then (k', e) :: rest else (k', e') :: entryAssign rest k e

/-- `SimpleCache.set`. -/
def cacheSet (c : SimpleCache) (key : String) (value : JVal) (now : ℚ) : SimpleCache :=
  { c with cache := entryAssign c.cache key ⟨value, now⟩ }

/-- `SimpleCache.cleanup_expired`: drop every entry whose age exceeds its
per-key TTL. -/
def cleanupExpired (c : SimpleCache) (now : ℚ) : SimpleCache :=
  { c with cache := c.cache.filter (fun kv => !(now - kv.2.timestamp > getTtlForKey c kv.1)) }

/-- The statistics record produced by `SimpleCache.get_stats` (counts are
Python ints). -/
structure CacheStats where
  total_entries : ℤ
  valid_entries : ℤ
  expired_entries : ℤ
  default_ttl_seconds : ℚ
  tool_ttls : List (String × ℚ)

/-- `SimpleCache.get_stats`. -/
def getStats (c : SimpleCache) (now : ℚ) : CacheStats :=
  let valid := (c.cache.countP (fun kv => now - kv.2.timestamp ≤ getTtlForKey c kv.1) : ℤ)
  { total_entries := (c.cache.length : ℤ)
    valid_entries := valid
    expired_entries := (c.cache.length : ℤ) - valid
    default_ttl_seconds := c.default_ttl
    tool_ttls := c.tool_ttls }

/-! ## General lemmas about the embedding -/

theorem exceptBind_ok {α β : Type _} {x : Except String α} {f : α → Except String β} {r : β} :
    x >>= f = .ok r ↔ ∃ a, x = .ok a ∧ f a = .ok r := by
  cases x <;> simp [Bind.bind, Except.bind]

theorem jLookup_jAssign_self (o : JObj) (k : String) (v : JVal) :
    jLookup (jAssign o k v) k = some v := by
  induction o with
  | nil => simp [jAssign, jLookup]
  | cons hd tl ih =>
      by_cases hk : hd.1 = k
      · simp [jAssign, hk, jLookup]
      · simp [jAssign, hk, jLookup, ih]

theorem jLookup_jAssign_ne (o : JObj) (k : String) (v : JVal) (k' : String) (h : k' ≠ k) :
    jLookup (jAssign o k v) k' = jLookup o k' := by
  induction o with
  | nil => simp [jAssign, jLookup, Ne.symm h]
  | cons hd tl ih =>
      obtain ⟨a, b⟩ := hd
      by_cases hk : a = k
      · subst hk
        simp [jAssign, jLookup, Ne.symm h, h]
      · by_cases hk' : a = k'
        · simp [jAssign, hk, jLookup, hk', h]
        · simp [jAssign, hk, jLookup, hk', ih]

theorem jLookup_filter_ne (o : JObj) (k0 k : String) (h : k ≠ k0) :
    jLookup (o.filter (fun kv => kv.1 ≠ k0)) k = jLookup o k := by
  induction o with
  | nil => rfl
  | cons hd tl ih =>
      obtain ⟨a, b⟩ := hd
      simp only [decide_not] at ih
      by_cases hk0 : a = k0
      · subst hk0
        simp [List.filter_cons, jLookup, Ne.symm h, ih]
      · by_cases hk : a = k
        · simp [List.filter_cons, hk0, jLookup, hk, h]
        · simp [List.filter_cons, hk0, jLookup, hk, ih]

theorem jLookup_filter_self (o : JObj) (k0 : String) :
    jLookup (o.filter (fun kv => kv.1 ≠ k0)) k0 = none := by
  induction o with
  | nil => rfl
  | cons hd tl ih =>
      obtain ⟨a, b⟩ := hd
      simp only [decide_not] at ih
      by_cases hk0 : a = k0
      · simp [List.filter_cons, hk0, ih]
      · simp [List.filter_cons, hk0, jLookup, ih]

theorem jCopyRaw_lookup_ne (o : JObj) (k : String) (dst : JObj) (k2 k' : String)
    (h : k' ≠ k2) : jLookup (jCopyRaw o k dst k2) k' = jLookup dst k' := by
  unfold jCopyRaw
  cases jLookup o k with
  | none => rfl
  | some v => exact jLookup_jAssign_ne dst k2 v k' h

theorem jCopyNum_lookup_ne (o : JObj) (k : String) (dst dst' : JObj) (k2 k' : String)
    (h : k' ≠ k2) (hok : jCopyNum o k dst k2 = .ok dst') :
    jLookup dst' k' = jLookup dst k' := by
  unfold jCopyNum at hok
  cases hl : jLookup o k with
  | none =>
      simp only [hl] at hok
      cases hok
      rfl
  | some v =>
      simp only [hl] at hok
      cases hn : jToNum v with
      | none => simp [hn] at hok
      | some q =>
          simp only [hn] at hok
          cases hok
          exact jLookup_jAssign_ne dst k2 (.num q) k' h

/-- Required-key numeric parse, phrased through `jLookup`. -/
theorem jReqNum_of_parse (o : JObj) (k : String) (q : ℚ)
    (h : (jLookup o k).bind jToNum = some q) : jReqNum o k = .ok q := by
  unfold jReqNum
  cases hl : jLookup o k with
  | none => rw [hl] at h; cases h
  | some v =>
      rw [hl] at h
      have h' : jToNum v = some q := h
      simp only [h']

/-- Inversion of `normalize` for a successfully dispatched binance data
type: recover the inner transform's output and the post-processing. -/
theorem normalize_ok_inv (dataType : String)
    (f : JVal → ℤ → Except String (JObj × Bool)) (raw : JVal) (addl : JObj) (now : ℤ)
    (out : JObj) (rawAfter : JVal)
    (hf : tableLookup dataType binanceNormalizers = some f)
    (hok : normalize "binance" dataType raw addl now = .ok (out, rawAfter)) :
    ∃ n aliased, f raw now = .ok (n, aliased) ∧
      out = (let n1 := if addl.isEmpty then n else jUpdate n addl
             if jHas n1 "venue" then n1 else jAssign n1 "venue" (.str "binance")) ∧
      rawAfter = if aliased then .obj out else raw := by
  unfold normalize at hok
  rw [if_pos rfl] at hok
  simp only [hf] at hok
  cases hrun : f raw now with
  | error e => simp [hrun] at hok
  | ok p =>
      obtain ⟨n, aliased⟩ := p
      simp only [hrun] at hok
      refine ⟨n, aliased, rfl, ?_, ?_⟩
      · cases hok; rfl
      · cases hok; rfl

/-- Post-processing of `normalize` (with no additional fields) preserves
every key other than `venue`. -/
theorem post_lookup_ne (n : JObj) (v : String) (k : String) (hk : k ≠ "venue") :
    jLookup (if jHas n "venue" then n else jAssign n "venue" (.str v)) k = jLookup n k := by
  split
  · rfl
  · exact jLookup_jAssign_ne n "venue" (.str v) k hk

theorem ok_bind {α β : Type _} (a : α) (f : α → Except String β) :
    (Except.ok a >>= f) = f a := rfl

/-! ## C1: ticker mid-price and spread -/

theorem ticker_core (o : JObj) (now : ℤ) (bid ask : ℚ)
    (hbid : (jLookup o "bidPrice").bind jToNum = some bid)
    (hask : (jLookup o "askPrice").bind jToNum = some ask)
    (n : JObj) (al : Bool)
    (h : normalizeBinanceTicker (.obj o) now = .ok (n, al)) :
    jLookup n "mid" = some (.num ((bid + ask) / 2)) ∧
    jLookup n "spread_bps" =
      some (.num (if (bid + ask) / 2 > 0
                  then ((ask - bid) / ((bid + ask) / 2)) * 10000 else 0)) := by
  unfold normalizeBinanceTicker at h
  dsimp only at h
  rw [jReqNum_of_parse o "bidPrice" bid hbid, jReqNum_of_parse o "askPrice" ask hask] at h
  simp only [ok_bind] at h
  simp only [exceptBind_ok, Except.ok.injEq, Prod.mk.injEq] at h
  obtain ⟨volume, hvol, symbol, hsym, n1, h1, n2, h2, n3, h3, hn, hal⟩ := h
  subst hn
  have e3 := jCopyNum_lookup_ne o "priceChangePercent" n2 n3 "price_change_percent" "mid"
    (by decide) h3
  have e2 := jCopyNum_lookup_ne o "quoteVolume" n1 n2 "quote_volume" "mid" (by decide) h2
  have e1 := jCopyNum_lookup_ne o "lastPrice" _ n1 "last" "mid" (by decide) h1
  have f3 := jCopyNum_lookup_ne o "priceChangePercent" n2 n3 "price_change_percent" "spread_bps"
    (by decide) h3
  have f2 := jCopyNum_lookup_ne o "quoteVolume" n1 n2 "quote_volume" "spread_bps" (by decide) h2
  have f1 := jCopyNum_lookup_ne o "lastPrice" _ n1 "last" "spread_bps" (by decide) h1
  constructor
  · rw [e3, e2, e1]; rfl
  · rw [f3, f2, f1]; rfl

/-- C1: for every ticker raw payload whose `bidPrice` and `askPrice` parse
to numbers, the ticker produced by `normalize(venue, "ticker", raw)` has
`mid = (bid+ask)/2`, and `spread_bps = (ask-bid)/mid*10000` when `mid > 0`
and `0` whenever `mid ≤ 0`. -/
theorem ticker_mid_and_spread_bps (raw : JObj) (now : ℤ) (bid ask : ℚ)
    (hbid : (jLookup raw "bidPrice").bind jToNum = some bid)
    (hask : (jLookup raw "askPrice").bind jToNum = some ask)
    (out : JObj) (rawAfter : JVal)
    (hok : normalize "binance" "ticker" (.obj raw) [] now = .ok (out, rawAfter)) :
    jLookup out "mid" = some (.num ((bid + ask) / 2)) ∧
    jLookup out "spread_bps" =
      some (.num (if (bid + ask) / 2 > 0
                  then ((ask - bid) / ((bid + ask) / 2)) * 10000 else 0)) := by
  obtain ⟨n, al, hrun, hout, -⟩ :=
    normalize_ok_inv "ticker" normalizeBinanceTicker (.obj raw) [] now out rawAfter rfl hok
  obtain ⟨hm, hs⟩ := ticker_core raw now bid ask hbid hask n al hrun
  have hout' : out = if jHas n "venue" then n else jAssign n "venue" (.str "binance") := hout
  rw [hout']
  exact ⟨(post_lookup_ne n "binance" "mid" (by decide)).trans hm,
         (post_lookup_ne n "binance" "spread_bps" (by decide)).trans hs⟩

/-- Concrete ticker payload from the spec's scenario (prices as numbers). -/
def wTickerRaw : JObj :=
  [("symbol", .str "BTCUSDT"), ("bidPrice", .num (43250 + 1/2)),
   ("askPrice", .num 43251), ("volume", .num (12345 + 67/100)),
   ("closeTime", .num 1697048400000)]

/-- The result of normalizing `wTickerRaw`. -/
def wTickerRes : JObj × JVal :=
  match normalize "binance" "ticker" (.obj wTickerRaw) [] 0 with
  | .ok p => p
  | .error _ => ([], .obj [])

theorem ticker_mid_and_spread_bps_witness :
    jLookup wTickerRes.1 "mid" = some (.num ((43250 + 1/2 + 43251) / 2)) ∧
    jLookup wTickerRes.1 "spread_bps" =
      some (.num (if (43250 + 1/2 + (43251 : ℚ)) / 2 > 0
                  then (((43251 : ℚ) - (43250 + 1/2)) / ((43250 + 1/2 + 43251) / 2)) * 10000
                  else 0)) :=
  ticker_mid_and_spread_bps wTickerRaw 0 (43250 + 1/2) 43251 (by with_unfolding_all rfl)
    (by with_unfolding_all rfl) wTickerRes.1 wTickerRes.2 (by with_unfolding_all rfl)

/-! ## C2: top-of-book imbalance -/

/-- Top-of-book payload with `bid_qty = ask_qty = 0` and no
`imbalance_ratio` field. -/
def cObL1Raw : JObj :=
  [("best_bid", .num 1), ("best_ask", .num 2),
   ("bid_volume", .num 0), ("ask_volume", .num 0)]

/-- Result of normalizing `cObL1Raw`. -/
def cObL1Res : JObj × JVal :=
  match normalize "binance" "orderbook_l1" (.obj cObL1Raw) [] 0 with
  | .ok p => p
  | .error _ => ([], .obj [])

/-- C2 counterexample: on an input with zero bid and ask quantities (and no
provider-computed ratio) the normalized imbalance is `0`, not the `0.5` the
claim requires. -/
theorem orderbook_l1_imbalance_zero_qty_counterexample :
    jLookup cObL1Res.1 "imbalance" = some (.num 0) ∧ (0 : ℚ) ≠ 1/2 := by
  constructor
  · with_unfolding_all rfl
  · norm_num

/-- Core of the L1 transform: `imbalance` is copied from the raw payload's
`imbalance_ratio` with default `0`. -/
theorem orderbook_l1_core (o : JObj) (now : ℤ) (n : JObj) (al : Bool)
    (h : normalizeBinanceOrderbookL1 (.obj o) now = .ok (n, al)) :
    jLookup n "imbalance" = some (jGetD o "imbalance_ratio" (.num 0)) := by
  unfold normalizeBinanceOrderbookL1 at h
  dsimp only at h
  split at h
  · cases h
  · simp only [exceptBind_ok, Except.ok.injEq, Prod.mk.injEq] at h
    obtain ⟨bb, hbb, ba, hba, hn, hal⟩ := h
    subst hn
    rw [jCopyRaw_lookup_ne o "ask_volume" _ "ask_volume" "imbalance" (by decide),
        jCopyRaw_lookup_ne o "bid_volume" _ "bid_volume" "imbalance" (by decide),
        jCopyRaw_lookup_ne o "symbol" _ "venue_symbol" "imbalance" (by decide)]
    rfl

/-- C2 amended: for every successfully normalized top-of-book payload, the
normalized `imbalance` is the raw `imbalance_ratio` value copied as-is,
defaulting to `0` when absent (no quantity ratio is computed). -/
theorem orderbook_l1_imbalance_copied (raw : JObj) (now : ℤ)
    (out : JObj) (rawAfter : JVal)
    (hok : normalize "binance" "orderbook_l1" (.obj raw) [] now = .ok (out, rawAfter)) :
    jLookup out "imbalance" = some (jGetD raw "imbalance_ratio" (.num 0)) := by
  obtain ⟨n, al, hrun, hout, -⟩ :=
    normalize_ok_inv "orderbook_l1" normalizeBinanceOrderbookL1 (.obj raw) [] now out rawAfter
      rfl hok
  have hout' : out = if jHas n "venue" then n else jAssign n "venue" (.str "binance") := hout
  rw [hout', post_lookup_ne n "binance" "imbalance" (by decide)]
  exact orderbook_l1_core raw now n al hrun

/-- Top-of-book payload carrying a provider-computed `imbalance_ratio`. -/
def wObL1Raw : JObj :=
  [("best_bid", .num 1), ("best_ask", .num 2), ("imbalance_ratio", .num (3/4))]

/-- Result of normalizing `wObL1Raw`. -/
def wObL1Res : JObj × JVal :=
  match normalize "binance" "orderbook_l1" (.obj wObL1Raw) [] 0 with
  | .ok p => p
  | .error _ => ([], .obj [])

theorem orderbook_l1_imbalance_copied_witness :
    jLookup wObL1Res.1 "imbalance" = some (jGetD wObL1Raw "imbalance_ratio" (.num 0)) :=
  orderbook_l1_imbalance_copied wObL1Raw 0 wObL1Res.1 wObL1Res.2 (by with_unfolding_all rfl)

/-! ## C8: asymmetric trade-side conventions -/

/-- C8: a single my-trade record normalizes with `side = "BUY"` when its
`isBuyer` flag is true and `"SELL"` otherwise, while a recent-trades record
normalizes with `side = "SELL"` when its `isBuyerMaker` flag is true and
`"BUY"` otherwise — the two transforms use inverse conventions. -/
theorem trade_side_conventions (o t : JObj) (now : ℤ) (n : JObj) (al : Bool)
    (m : JObj) (al2 : Bool) (bMy bMk : Bool)
    (hmyflag : jGetD o "isBuyer" (.bool false) = .bool bMy)
    (hmkflag : jGetD t "isBuyerMaker" (.bool false) = .bool bMk) :
    (normalizeBinanceTrade (.obj o) now = .ok (n, al) →
      jLookup n "side" = some (.str (if bMy then "BUY" else "SELL"))) ∧
    (normalizeBinanceRecentTrades (.list [.obj t]) now = .ok (m, al2) →
      ∃ nt, jLookup m "trades" = some (.list [.obj nt]) ∧
        jLookup nt "side" = some (.str (if bMk then "SELL" else "BUY"))) := by
  constructor
  · intro h
    unfold normalizeBinanceTrade at h
    dsimp only at h
    simp only [exceptBind_ok, Except.ok.injEq, Prod.mk.injEq] at h
    obtain ⟨tid, htid, oid, hoid, sym, hsym, p, hp, q, hq, qq, hqq, fee, hfee, ts, hts,
            hn, hal⟩ := h
    subst hn
    rw [hmyflag]
    cases bMy <;> rfl
  · intro h
    unfold normalizeBinanceRecentTrades at h
    dsimp only at h
    simp only [exceptBind_ok, Except.ok.injEq, Prod.mk.injEq] at h
    obtain ⟨trades, htr, hm, hal⟩ := h
    subst hm
    unfold normalizeRecentTradeList normalizeRecentTrade at htr
    dsimp only at htr
    simp only [exceptBind_ok, Except.ok.injEq, Prod.mk.injEq] at htr
    obtain ⟨x, ⟨tid, htid, p, hp, q, hq, qq, hqq, ts, hts, hx⟩, xs, hxs, htrades⟩ := htr
    subst hx
    subst htrades
    cases hxs
    refine ⟨_, rfl, ?_⟩
    rw [hmkflag]
    cases bMk <;> rfl

/-- My-trade record with `isBuyer: true` (spec scenario). -/
def wMyTradeRaw : JObj :=
  [("id", .num 123), ("orderId", .num 55), ("symbol", .str "BTCUSDT"),
   ("price", .str "10"), ("qty", .str "1"), ("quoteQty", .str "10"),
   ("time", .num 1), ("isBuyer", .bool true)]

/-- Recent-trades record with `isBuyerMaker: true` (spec scenario). -/
def wRecentTradeRaw : JObj :=
  [("id", .num 1), ("price", .str "10"), ("qty", .str "1"),
   ("quoteQty", .str "10"), ("time", .num 1), ("isBuyerMaker", .bool true)]

/-- Result of the my-trade transform on `wMyTradeRaw`. -/
def wMyTradeRes : JObj × Bool :=
  match normalizeBinanceTrade (.obj wMyTradeRaw) 0 with
  | .ok p => p
  | .error _ => ([], false)

/-- Result of the recent-trades transform on `[wRecentTradeRaw]`. -/
def wRecentTradeRes : JObj × Bool :=
  match normalizeBinanceRecentTrades (.list [.obj wRecentTradeRaw]) 0 with
  | .ok p => p
  | .error _ => ([], false)

theorem trade_side_conventions_witness :
    jLookup wMyTradeRes.1 "side" = some (.str "BUY") ∧
    (∃ nt, jLookup wRecentTradeRes.1 "trades" = some (.list [.obj nt]) ∧
      jLookup nt "side" = some (.str "SELL")) := by
  have h := trade_side_conventions wMyTradeRaw wRecentTradeRaw 0
    wMyTradeRes.1 wMyTradeRes.2 wRecentTradeRes.1 wRecentTradeRes.2 true true
    (by with_unfolding_all rfl) (by with_unfolding_all rfl)
  exact ⟨h.1 (by with_unfolding_all rfl), h.2 (by with_unfolding_all rfl)⟩

/-! ## C7: account balance filtering -/

/-- Whether the balance loop keeps an entry: both amounts parse and the
total `free + locked` is strictly positive. -/
def balIncluded (b : JVal) : Bool :=
  match b with
  | .obj bo =>
      match (jLookup bo "free").bind jToNum, (jLookup bo "locked").bind jToNum with
      | some f, some l => decide (0 < f + l)
      | _, _ => false
  | _ => false

theorem jReqNum_ok_parse (o : JObj) (k : String) (q : ℚ)
    (h : jReqNum o k = .ok q) : (jLookup o k).bind jToNum = some q := by
  unfold jReqNum at h
  cases hl : jLookup o k with
  | none => rw [hl] at h; cases h
  | some v =>
      simp only [hl] at h
      cases hn : jToNum v with
      | none => simp [hn] at h
      | some q' => simp only [hn, Except.ok.injEq] at h; simp [hn, h]

theorem jReq_ok (o : JObj) (k : String) (v : JVal) (h : jReq o k = .ok v) :
    jLookup o k = some v := by
  unfold jReq at h
  cases hl : jLookup o k with
  | none => rw [hl] at h; cases h
  | some w => simp only [hl, Except.ok.injEq] at h; rw [h]

/-- Characterization of the balance loop: the output has exactly one entry
per input balance with positive parsed total, and every output entry is
`{asset, free, locked, total}` with `total = free + locked > 0` coming from
some input entry. -/
theorem normalizeBalances_spec (bs nbs : List JVal)
    (h : normalizeBalances bs = .ok nbs) :
    nbs.length = bs.countP balIncluded ∧
    ∀ nb ∈ nbs, ∃ b ∈ bs, ∃ (bo : JObj) (f l : ℚ) (asset : JVal),
      b = .obj bo ∧
      (jLookup bo "free").bind jToNum = some f ∧
      (jLookup bo "locked").bind jToNum = some l ∧
      jLookup bo "asset" = some asset ∧
      0 < f + l ∧ nb = mkBalance asset f l := by
  induction bs generalizing nbs with
  | nil =>
      unfold normalizeBalances at h
      cases h
      simp
  | cons b rest ih =>
      unfold normalizeBalances at h
      cases b with
      | obj bo =>
          dsimp only at h
          simp only [exceptBind_ok] at h
          obtain ⟨f, hf, l, hl, hrest⟩ := h
          have hf' := jReqNum_ok_parse bo "free" f hf
          have hl' := jReqNum_ok_parse bo "locked" l hl
          split at hrest
          case isTrue hpos =>
              simp only [exceptBind_ok, Except.ok.injEq] at hrest
              obtain ⟨asset, hasset, xs, hxs, hcons⟩ := hrest
              subst hcons
              obtain ⟨ihlen, ihmem⟩ := ih xs hxs
              have hinc : balIncluded (.obj bo) = true := by
                simp [balIncluded, hf', hl']
                exact hpos
              constructor
              · simp [List.countP_cons, hinc, ihlen]
              · intro nb hnb
                rcases List.mem_cons.mp hnb with hnb | hnb
                · exact ⟨.obj bo, List.mem_cons_self _ _,
                    bo, f, l, asset, rfl, hf', hl', jReq_ok bo "asset" asset hasset,
                    hpos, hnb⟩
                · obtain ⟨b', hb', rest'⟩ := ihmem nb hnb
                  exact ⟨b', List.mem_cons_of_mem _ hb', rest'⟩
          case isFalse hneg =>
              obtain ⟨ihlen, ihmem⟩ := ih nbs hrest
              have hinc : balIncluded (.obj bo) = false := by
                simp [balIncluded, hf', hl']
                exact le_of_not_lt hneg
              constructor
              · simp [List.countP_cons, hinc, ihlen]
              · intro nb hnb
                obtain ⟨b', hb', rest'⟩ := ihmem nb hnb
                exact ⟨b', List.mem_cons_of_mem _ hb', rest'⟩
      | str s => cases h
      | num q => cases h
      | bool b => cases h
      | list xs => cases h

/-- C7 amended: for every successfully normalized account payload, the
normalized balances list keeps exactly the per-asset entries whose parsed
`free + locked` total is strictly positive (so a zero — or negative —
total is excluded), and every kept entry satisfies
`total = free + locked`. -/
theorem account_balances_filter (raw : JObj) (now : ℤ) (bs : List JVal)
    (out : JObj) (rawAfter : JVal)
    (hbs : jGetD raw "balances" (.list []) = .list bs)
    (hok : normalize "binance" "account" (.obj raw) [] now = .ok (out, rawAfter)) :
    ∃ nbs, jLookup out "balances" = some (.list nbs) ∧
      nbs.length = bs.countP balIncluded ∧
      ∀ nb ∈ nbs, ∃ b ∈ bs, ∃ (bo : JObj) (f l : ℚ) (asset : JVal),
        b = .obj bo ∧
        (jLookup bo "free").bind jToNum = some f ∧
        (jLookup bo "locked").bind jToNum = some l ∧
        jLookup bo "asset" = some asset ∧
        0 < f + l ∧ nb = mkBalance asset f l := by
  obtain ⟨n, al, hrun, hout, -⟩ :=
    normalize_ok_inv "account" normalizeBinanceAccount (.obj raw) [] now out rawAfter rfl hok
  have hout' : out = if jHas n "venue" then n else jAssign n "venue" (.str "binance") := hout
  unfold normalizeBinanceAccount at hrun
  dsimp only at hrun
  simp only [hbs] at hrun
  simp only [ok_bind, exceptBind_ok, Except.ok.injEq, Prod.mk.injEq] at hrun
  obtain ⟨balances, hbal, hn, hal⟩ := hrun
  subst hn
  obtain ⟨hlen, hmem⟩ := normalizeBalances_spec bs balances hbal
  refine ⟨balances, ?_, hlen, hmem⟩
  rw [hout', post_lookup_ne _ "binance" "balances" (by decide)]
  rfl

/-- Account payload holding one balance with negative total. -/
def cAccountRaw : JObj :=
  [("balances", .list [.obj
    [("asset", .str "X"), ("free", .str "-1"), ("locked", .str "0")]])]

/-- Result of normalizing `cAccountRaw`. -/
def cAccountRes : JObj × JVal :=
  match normalize "binance" "account" (.obj cAccountRaw) [] 0 with
  | .ok p => p
  | .error _ => ([], .obj [])

/-- C7 counterexample: the claim says the normalized list excludes exactly
the assets with `free + locked = 0`; the entry `free = -1, locked = 0` has
total `-1 ≠ 0` yet is excluded (the code keeps only `total > 0`). -/
theorem account_negative_total_counterexample :
    jLookup cAccountRes.1 "balances" = some (.list []) ∧ (-1 : ℚ) + 0 ≠ 0 := by
  constructor
  · with_unfolding_all rfl
  · norm_num

/-- Account payload from the spec example: one positive asset, one zero. -/
def wAccountBs : List JVal :=
  [.obj [("asset", .str "BTC"), ("free", .str "1.234"), ("locked", .str "0.01")],
   .obj [("asset", .str "ETH"), ("free", .str "0"), ("locked", .str "0")]]

/-- Wrapper payload for `wAccountBs`. -/
def wAccountRaw : JObj := [("balances", .list wAccountBs)]

/-- Result of normalizing `wAccountRaw`. -/
def wAccountRes : JObj × JVal :=
  match normalize "binance" "account" (.obj wAccountRaw) [] 0 with
  | .ok p => p
  | .error _ => ([], .obj [])

theorem account_balances_filter_witness :
    ∃ nbs, jLookup wAccountRes.1 "balances" = some (.list nbs) ∧
      nbs.length = wAccountBs.countP balIncluded ∧
      ∀ nb ∈ nbs, ∃ b ∈ wAccountBs, ∃ (bo : JObj) (f l : ℚ) (asset : JVal),
        b = .obj bo ∧
        (jLookup bo "free").bind jToNum = some f ∧
        (jLookup bo "locked").bind jToNum = some l ∧
        jLookup bo "asset" = some asset ∧
        0 < f + l ∧ nb = mkBalance asset f l :=
  account_balances_filter wAccountRaw 0 wAccountBs wAccountRes.1 wAccountRes.2
    (by with_unfolding_all rfl) (by with_unfolding_all rfl)

/-! ## C9: freshness of normalized responses vs. aliasing pass-throughs -/

/-- Every successful outcome of the computation carries a `false` aliasing
flag: the produced dict is fresh, not the raw payload. -/
def FreshE (x : Except String (JObj × Bool)) : Prop :=
  ∀ n al, x = .ok (n, al) → al = false

theorem freshE_error (e : String) : FreshE (.error e) := by
  intro n al h
  cases h

theorem freshE_ok (n : JObj) : FreshE (.ok (n, false)) := by
  intro n' al h
  cases h
  rfl

theorem freshE_bind {γ : Type _} {x : Except String γ}
    {k : γ → Except String (JObj × Bool)} (hk : ∀ a, FreshE (k a)) :
    FreshE (x >>= k) := by
  cases x with
  | error e => intro n al h; cases h
  | ok a => exact hk a

theorem ticker_freshE (raw : JVal) (now : ℤ) :
    FreshE (normalizeBinanceTicker raw now) := by
  unfold normalizeBinanceTicker
  cases raw <;> dsimp only <;>
  repeat first
    | exact freshE_error _
    | exact freshE_ok _
    | (apply freshE_bind; intro _)
    | split

theorem orderbook_l1_freshE (raw : JVal) (now : ℤ) :
    FreshE (normalizeBinanceOrderbookL1 raw now) := by
  unfold normalizeBinanceOrderbookL1
  cases raw <;> dsimp only <;>
  repeat first
    | exact freshE_error _
    | exact freshE_ok _
    | (apply freshE_bind; intro _)
    | split

theorem orderbook_l2_freshE (raw : JVal) (now : ℤ) :
    FreshE (normalizeBinanceOrderbookL2 raw now) := by
  unfold normalizeBinanceOrderbookL2
  cases raw <;> dsimp only <;>
  repeat first
    | exact freshE_error _
    | exact freshE_ok _
    | (apply freshE_bind; intro _)
    | split

theorem klines_freshE (raw : JVal) (now : ℤ) :
    FreshE (normalizeBinanceKlines raw now) := by
  unfold normalizeBinanceKlines
  cases raw <;> dsimp only <;>
  repeat first
    | exact freshE_error _
    | exact freshE_ok _
    | (apply freshE_bind; intro _)
    | split

theorem order_freshE (raw : JVal) (now : ℤ) :
    FreshE (normalizeBinanceOrder raw now) := by
  unfold normalizeBinanceOrder
  cases raw <;> dsimp only <;>
  repeat first
    | exact freshE_error _
    | exact freshE_ok _
    | (apply freshE_bind; intro _)
    | split

theorem account_freshE (raw : JVal) (now : ℤ) :
    FreshE (normalizeBinanceAccount raw now) := by
  unfold normalizeBinanceAccount
  cases raw <;> dsimp only <;>
  repeat first
    | exact freshE_error _
    | exact freshE_ok _
    | (apply freshE_bind; intro _)
    | split

theorem trade_freshE (raw : JVal) (now : ℤ) :
    FreshE (normalizeBinanceTrade raw now) := by
  unfold normalizeBinanceTrade
  cases raw <;> dsimp only <;>
  repeat first
    | exact freshE_error _
    | exact freshE_ok _
    | (apply freshE_bind; intro _)
    | split

theorem exchange_info_freshE (raw : JVal) (now : ℤ) :
    FreshE (normalizeBinanceExchangeInfo raw now) := by
  unfold normalizeBinanceExchangeInfo
  cases raw <;> dsimp only <;>
  repeat first
    | exact freshE_error _
    | exact freshE_ok _
    | (apply freshE_bind; intro _)
    | split

theorem recent_trades_freshE (raw : JVal) (now : ℤ) :
    FreshE (normalizeBinanceRecentTrades raw now) := by
  unfold normalizeBinanceRecentTrades
  dsimp only
  repeat first
    | exact freshE_error _
    | exact freshE_ok _
    | (apply freshE_bind; intro _)
    | split

theorem orderbook_health_freshE (raw : JVal) (now : ℤ) :
    FreshE (normalizeBinanceOrderbookHealth raw now) := by
  unfold normalizeBinanceOrderbookHealth
  cases raw <;> dsimp only <;>
  repeat first
    | exact freshE_error _
    | exact freshE_ok _
    | (apply freshE_bind; intro _)
    | split

/-- `normalize` leaves the raw payload unchanged whenever the dispatched
transform builds a fresh dict. -/
theorem normalize_fresh_of (dataType : String)
    (f : JVal → ℤ → Except String (JObj × Bool))
    (hf : tableLookup dataType binanceNormalizers = some f)
    (hfresh : ∀ raw now, FreshE (f raw now))
    (raw : JVal) (addl : JObj) (now : ℤ) (out : JObj) (rawAfter : JVal)
    (hok : normalize "binance" dataType raw addl now = .ok (out, rawAfter)) :
    rawAfter = raw := by
  obtain ⟨n, al, hrun, -, hraw⟩ :=
    normalize_ok_inv dataType f raw addl now out rawAfter hf hok
  rw [hraw, hfresh raw now n al hrun]
  rfl

/-- Raw volume-profile payload used to exhibit the mutation. -/
def cVolProfRaw : JObj := [("poc", .num 1)]

/-- C9 counterexample: normalizing the pass-through `volume_profile` type
with additional fields returns the raw dict itself and mutates it — after
the call the raw payload has gained `latency_ms` and `venue` keys, so it is
no longer the input value. -/
theorem normalize_mutates_raw_counterexample :
    normalize "binance" "volume_profile" (.obj cVolProfRaw) [("latency_ms", .num 5)] 0 =
      .ok ([("poc", .num 1), ("latency_ms", .num 5), ("venue", .str "binance")],
           .obj [("poc", .num 1), ("latency_ms", .num 5), ("venue", .str "binance")]) ∧
    JVal.obj [("poc", .num 1), ("latency_ms", .num 5), ("venue", .str "binance")] ≠
      .obj cVolProfRaw := by
  constructor
  · with_unfolding_all rfl
  · simp [cVolProfRaw]

/-- C9 amended: for every data type other than the three identity
pass-throughs (`volume_profile`, `market_anomalies`,
`microstructure_health`), a successful `normalize` call leaves the raw
payload unchanged; for those three the returned dict is the raw object
itself, which the post-processing then mutates. -/
theorem normalize_preserves_raw (dataType : String) (raw : JVal) (addl : JObj) (now : ℤ)
    (out : JObj) (rawAfter : JVal)
    (h1 : dataType ≠ "volume_profile")
    (h2 : dataType ≠ "market_anomalies")
    (h3 : dataType ≠ "microstructure_health")
    (hok : normalize "binance" dataType raw addl now = .ok (out, rawAfter)) :
    rawAfter = raw := by
  by_cases d1 : dataType = "ticker"
  · subst d1; exact normalize_fresh_of "ticker" normalizeBinanceTicker rfl ticker_freshE raw addl now out rawAfter hok
  by_cases d2 : dataType = "orderbook_l1"
  · subst d2; exact normalize_fresh_of "orderbook_l1" normalizeBinanceOrderbookL1 rfl orderbook_l1_freshE raw addl now out rawAfter hok
  by_cases d3 : dataType = "orderbook_l2"
  · subst d3; exact normalize_fresh_of "orderbook_l2" normalizeBinanceOrderbookL2 rfl orderbook_l2_freshE raw addl now out rawAfter hok
  by_cases d4 : dataType = "klines"
  · subst d4; exact normalize_fresh_of "klines" normalizeBinanceKlines rfl klines_freshE raw addl now out rawAfter hok
  by_cases d5 : dataType = "order"
  · subst d5; exact normalize_fresh_of "order" normalizeBinanceOrder rfl order_freshE raw addl now out rawAfter hok
  by_cases d6 : dataType = "account"
  · subst d6; exact normalize_fresh_of "account" normalizeBinanceAccount rfl account_freshE raw addl now out rawAfter hok
  by_cases d7 : dataType = "trade"
  · subst d7; exact normalize_fresh_of "trade" normalizeBinanceTrade rfl trade_freshE raw addl now out rawAfter hok
  by_cases d8 : dataType = "exchange_info"
  · subst d8; exact normalize_fresh_of "exchange_info" normalizeBinanceExchangeInfo rfl exchange_info_freshE raw addl now out rawAfter hok
  by_cases d9 : dataType = "recent_trades"
  · subst d9; exact normalize_fresh_of "recent_trades" normalizeBinanceRecentTrades rfl recent_trades_freshE raw addl now out rawAfter hok
  by_cases d10 : dataType = "orderbook_health"
  · subst d10
    exact normalize_fresh_of "orderbook_health" normalizeBinanceOrderbookHealth rfl orderbook_health_freshE raw addl now out rawAfter hok
  have hnone : tableLookup dataType binanceNormalizers = none := by
    simp [tableLookup, binanceNormalizers, Ne.symm d1, Ne.symm d2, Ne.symm d3, Ne.symm d4,
      Ne.symm d5, Ne.symm d6, Ne.symm d7, Ne.symm d8, Ne.symm d9, Ne.symm d10,
      Ne.symm h1, Ne.symm h2, Ne.symm h3]
  unfold normalize at hok
  rw [if_pos rfl] at hok
  simp [hnone] at hok

/-- Successful run of a non-aliasing data type, for the witness. -/
def wPreserveRes : JObj × JVal :=
  match normalize "binance" "orderbook_health" (.obj [("health_score", .num 9)])
      [("latency_ms", .num 5)] 0 with
  | .ok p => p
  | .error _ => ([], .obj [])

theorem normalize_preserves_raw_witness :
    wPreserveRes.2 = .obj [("health_score", .num 9)] :=
  normalize_preserves_raw "orderbook_health" (.obj [("health_score", .num 9)])
    [("latency_ms", .num 5)] 0 wPreserveRes.1 wPreserveRes.2
    (by decide) (by decide) (by decide) (by with_unfolding_all rfl)

/-! ## C3: argument rewriting -/

/-- Lookup-level characterization of `rewriteArgs`. -/
theorem rewriteArgs_spec (args : JObj) :
    jLookup (rewriteArgs args) "venue" = none ∧
    jLookup (rewriteArgs args) "instrument" = none ∧
    (∀ v, jLookup args "instrument" = some v →
      jLookup (rewriteArgs args) "symbol" = some v) ∧
    (jLookup args "instrument" = none →
      jLookup (rewriteArgs args) "symbol" = jLookup args "symbol") ∧
    (∀ k, k ≠ "venue" → k ≠ "instrument" → k ≠ "symbol" →
      jLookup (rewriteArgs args) k = jLookup args k) := by
  unfold rewriteArgs
  dsimp only
  have hpa : ∀ k, k ≠ "venue" →
      jLookup (args.filter (fun kv => kv.1 ≠ "venue")) k = jLookup args k :=
    fun k hk => jLookup_filter_ne args "venue" k hk
  cases hi : jLookup (args.filter (fun kv => kv.1 ≠ "venue")) "instrument" with
  | none =>
      dsimp only
      refine ⟨jLookup_filter_self args "venue", ?_, ?_, ?_, ?_⟩
      · exact hi
      · intro v hv
        rw [hpa "instrument" (by decide)] at hi
        rw [hv] at hi
        cases hi
      · intro _
        exact hpa "symbol" (by decide)
      · intro k hk1 _ _
        exact hpa k hk1
  | some v =>
      dsimp only
      have herase : jErase (args.filter (fun kv => kv.1 ≠ "venue")) "instrument" =
          (args.filter (fun kv => kv.1 ≠ "venue")).filter
            (fun kv => kv.1 ≠ "instrument") := rfl
      refine ⟨?_, ?_, ?_, ?_, ?_⟩
      · rw [jLookup_jAssign_ne _ "symbol" v "venue" (by decide), herase,
          jLookup_filter_ne _ "instrument" "venue" (by decide)]
        exact jLookup_filter_self args "venue"
      · rw [jLookup_jAssign_ne _ "symbol" v "instrument" (by decide), herase]
        exact jLookup_filter_self _ "instrument"
      · intro w hw
        rw [hpa "instrument" (by decide), hw] at hi
        cases hi
        exact jLookup_jAssign_self _ "symbol" v
      · intro hnone
        rw [hpa "instrument" (by decide), hnone] at hi
        cases hi
      · intro k hk1 hk2 hk3
        rw [jLookup_jAssign_ne _ "symbol" v k hk3, herase,
          jLookup_filter_ne _ "instrument" k hk2]
        exact hpa k hk1

/-- Inversion: a successful routing decision carries the rewritten
arguments as its payload. -/
theorem routeDecision_ok_payload (providerClients : List (String × ProviderClient))
    (tool : String) (args : JObj) (v : String) (c : ProviderClient)
    (pt : String) (pl : JObj)
    (h : routeDecision providerClients tool args = .ok (v, c, pt, pl)) :
    pl = rewriteArgs args := by
  unfold routeDecision at h
  iterate 6 (all_goals (try split at h))
  all_goals cases h
  all_goals rfl

/-- C3: every payload actually passed to a provider client's `invoke` is
the input arguments with `venue` removed and `instrument` renamed to
`symbol` (same value), all other keys unchanged. -/
theorem route_payload_rewrite (providerClients : List (String × ProviderClient))
    (tool : String) (args : JObj) (latencyMs : ℚ)
    (res : Except RouteError JObj) (ptool : String) (payload : JObj)
    (htrace : routeToolCall providerClients tool args latencyMs = (res, [(ptool, payload)])) :
    jLookup payload "venue" = none ∧
    jLookup payload "instrument" = none ∧
    (∀ v, jLookup args "instrument" = some v → jLookup payload "symbol" = some v) ∧
    (jLookup args "instrument" = none →
      jLookup payload "symbol" = jLookup args "symbol") ∧
    (∀ k, k ≠ "venue" → k ≠ "instrument" → k ≠ "symbol" →
      jLookup payload k = jLookup args k) := by
  have hpl : payload = rewriteArgs args := by
    unfold routeToolCall at htrace
    cases hdec : routeDecision providerClients tool args with
    | error e => rw [hdec] at htrace; cases htrace
    | ok r =>
        obtain ⟨v, c, pt, pl⟩ := r
        rw [hdec] at htrace
        dsimp only at htrace
        have hpl' : pl = rewriteArgs args :=
          routeDecision_ok_payload providerClients tool args v c pt pl hdec
        cases hinv : c.invokeResult pt pl with
        | error cause =>
            rw [hinv] at htrace
            dsimp only at htrace
            cases htrace
            exact hpl'
        | ok resp =>
            rw [hinv] at htrace
            dsimp only at htrace
            cases htrace
            exact hpl'
  subst hpl
  exact rewriteArgs_spec args

/-- A provider client whose `invoke` succeeds with an empty result dict. -/
def wClient : ProviderClient := ⟨true, fun _ _ => .ok [("result", .obj [])]⟩

/-- The spec scenario's arguments. -/
def wRouteArgs : JObj := [("venue", .str "binance"), ("instrument", .str "BTCUSDT")]

/-- Result of routing `wRouteArgs`. -/
def wRouteRes : Except RouteError JObj × List (String × JObj) :=
  routeToolCall [("binance", wClient)] "market.generate_report" wRouteArgs 0

theorem route_payload_rewrite_witness :
    jLookup [("symbol", JVal.str "BTCUSDT")] "venue" = none ∧
    jLookup [("symbol", JVal.str "BTCUSDT")] "instrument" = none ∧
    jLookup [("symbol", JVal.str "BTCUSDT")] "symbol" = some (.str "BTCUSDT") := by
  have h := route_payload_rewrite [("binance", wClient)] "market.generate_report"
    wRouteArgs 0 wRouteRes.1 "binance.generate_market_report"
    [("symbol", JVal.str "BTCUSDT")] (by with_unfolding_all rfl)
  exact ⟨h.1, h.2.1, h.2.2.1 (.str "BTCUSDT") (by with_unfolding_all rfl)⟩

/-! ## C4: validation failures precede any provider call -/

/-- C4: an unknown venue, an unconfigured provider, or an unsupported tool
each fail with the corresponding typed error, and the provider client's
`invoke` is never called (the call trace is empty). -/
theorem route_validates_before_invoke (providerClients : List (String × ProviderClient))
    (tool : String) (args : JObj) (latencyMs : ℚ) :
    (∀ v : JVal, jGetD args "venue" (.str "binance") = v →
      (∀ s, v = .str s → s ∉ PUBLIC_VENUES) →
      routeToolCall providerClients tool args latencyMs =
        (.error (.unknownVenue v PUBLIC_VENUES), [])) ∧
    (∀ s pid, jGetD args "venue" (.str "binance") = .str s → s ∈ PUBLIC_VENUES →
      tableLookup s VENUE_MAPPING = some pid →
      tableLookup pid providerClients = none →
      routeToolCall providerClients tool args latencyMs =
        (.error (.providerNotConfigured s), [])) ∧
    (∀ s pid c, jGetD args "venue" (.str "binance") = .str s → s ∈ PUBLIC_VENUES →
      tableLookup s VENUE_MAPPING = some pid →
      tableLookup pid providerClients = some c →
      tableLookup tool toolMapping = none →
      routeToolCall providerClients tool args latencyMs =
        (.error (.unsupportedTool tool (toolMapping.map Prod.fst)), [])) := by
  refine ⟨?_, ?_, ?_⟩
  · intro v hv hnot
    unfold routeToolCall routeDecision
    rw [hv]
    cases v with
    | str s =>
        dsimp only
        rw [if_neg (hnot s rfl)]
    | num q => rfl
    | bool b => rfl
    | list xs => rfl
    | obj o => rfl
  · intro s pid hv hmem hmap hcli
    unfold routeToolCall routeDecision
    rw [hv]
    dsimp only
    rw [if_pos hmem]
    simp only [hmap, hcli]
  · intro s pid c hv hmem hmap hcli htool
    unfold routeToolCall routeDecision
    rw [hv]
    dsimp only
    rw [if_pos hmem]
    simp only [hmap, hcli, htool]

/-- Arguments naming the unconfigured venue `kraken` (spec scenario). -/
def wKrakenArgs : JObj := [("venue", .str "kraken")]

theorem route_validates_before_invoke_witness :
    routeToolCall [("binance", wClient)] "market.generate_report" wKrakenArgs 0 =
      (.error (.unknownVenue (.str "kraken") PUBLIC_VENUES), []) := by
  have h := route_validates_before_invoke [("binance", wClient)]
    "market.generate_report" wKrakenArgs 0
  refine h.1 (.str "kraken") (by with_unfolding_all rfl) ?_
  intro s hs
  cases hs
  decide

/-! ## C5: routing metadata on provider success -/

/-- A provider client whose `invoke` returns (without raising) a response
carrying an application-level `error` field and no `result` key. -/
def cErrClient : ProviderClient := ⟨true, fun _ _ => .ok [("error", .str "boom")]⟩

/-- C5 counterexample: `invoke` returns without raising, yet the value
returned by `route_tool_call` carries no `routing_info` — the metadata is
only attached when the response has a `result` key. -/
theorem route_routing_info_counterexample :
    routeToolCall [("binance", cErrClient)] "market.generate_report"
      [("venue", .str "binance")] 7 =
      (.ok [("error", .str "boom")], [("binance.generate_market_report", [])]) ∧
    jLookup [("error", .str "boom")] "routing_info" = none := by
  constructor
  · with_unfolding_all rfl
  · rfl

/-- C5 amended: when `invoke` returns a response containing a `result` key,
the routed value carries a top-level `routing_info` with the unified tool
name, provider tool name, venue and latency; and when the raw `result` is a
structured mapping, `latency_ms` and the venue are injected into it. -/
theorem route_routing_info_on_result (providerClients : List (String × ProviderClient))
    (tool : String) (args : JObj) (latencyMs : ℚ) (v : String) (c : ProviderClient)
    (pt : String) (payload : JObj) (resp : JObj)
    (hdec : routeDecision providerClients tool args = .ok (v, c, pt, payload))
    (hinv : c.invokeResult pt payload = .ok resp)
    (hres : jHas resp "result" = true) :
    ∃ final, routeToolCall providerClients tool args latencyMs =
        (.ok final, [(pt, payload)]) ∧
      jLookup final "routing_info" =
        some (.obj [("unified_tool", .str tool), ("provider_tool", .str pt),
                    ("venue", .str v), ("latency_ms", .num latencyMs)]) ∧
      (∀ ro, jLookup resp "result" = some (.obj ro) →
        jLookup final "result" =
          some (.obj (jAssign (jAssign ro "latency_ms" (.num latencyMs))
                      "venue" (.str v)))) := by
  unfold routeToolCall
  rw [hdec]
  try dsimp only
  rw [hinv]
  try dsimp only
  rw [hres]
  try dsimp only
  refine ⟨_, rfl, jLookup_jAssign_self _ "routing_info" _, ?_⟩
  intro ro hro
  rw [hro]
  try dsimp only
  rw [if_pos rfl, jLookup_jAssign_ne _ "routing_info" _ "result" (by decide)]
  exact jLookup_jAssign_self _ "result" _

/-- A provider client whose `invoke` succeeds with a structured `result`. -/
def wOkClient : ProviderClient :=
  ⟨true, fun _ _ => .ok [("result", .obj [("price", .num 10)])]⟩

theorem route_routing_info_on_result_witness :
    ∃ final, routeToolCall [("binance", wOkClient)] "market.generate_report"
        [("venue", .str "binance")] 3 =
        (.ok final, [("binance.generate_market_report", [])]) ∧
      jLookup final "routing_info" =
        some (.obj [("unified_tool", .str "market.generate_report"),
                    ("provider_tool", .str "binance.generate_market_report"),
                    ("venue", .str "binance"), ("latency_ms", .num 3)]) ∧
      (∀ ro, jLookup [("result", JVal.obj [("price", JVal.num 10)])] "result" =
          some (.obj ro) →
        jLookup final "result" =
          some (.obj (jAssign (jAssign ro "latency_ms" (.num 3))
                      "venue" (.str "binance")))) :=
  route_routing_info_on_result [("binance", wOkClient)] "market.generate_report"
    [("venue", .str "binance")] 3 "binance" wOkClient "binance.generate_market_report"
    [] [("result", .obj [("price", .num 10)])]
    (by with_unfolding_all rfl) (by with_unfolding_all rfl) (by with_unfolding_all rfl)

/-! ## C6: cache TTL resolution -/

/-- TTL resolution following the claim's words (for comparison only):
among all table patterns occurring in the key, the TTL of the longest
matching one is used; the default applies when none matches. -/
def ttlLongestMatch (c : SimpleCache) (key : String) : ℚ :=
  let matching := c.tool_ttls.filter (fun pt => strHasSub pt.1 key)
  match matching.foldl
      (fun best pt =>
        match best with
        | none => some pt
        | some b => if pt.1.length > b.1.length then some pt else some b) none with
  | some pt => pt.2
  | none => c.default_ttl

/-- A cache whose table has two matching patterns of different lengths. -/
def cTtlCache : SimpleCache :=
  ⟨5, [("a", 1), ("ab", 2)], [("abc", ⟨.num 0, 0⟩)]⟩

/-- C6 counterexample: for key `"abc"` both `"a"` and the longer `"ab"`
occur in the key; the code resolves the TTL to `1` (first table entry in
order), not the longest match's `2`, and `get` at age `1.5` accordingly
evicts the entry even though the longest-match TTL `2` has not elapsed. -/
theorem cache_ttl_longest_match_counterexample :
    getTtlForKey cTtlCache "abc" = 1 ∧
    ttlLongestMatch cTtlCache "abc" = 2 ∧
    (1 : ℚ) ≠ 2 ∧
    (cacheGet cTtlCache "abc" (3/2)).1 = none ∧
    ((3 : ℚ)/2 - 0 ≤ 2) := by
  refine ⟨by with_unfolding_all rfl, by with_unfolding_all rfl, by norm_num,
    by with_unfolding_all rfl, by norm_num⟩

theorem find_append_of_none {α : Type _} (p : α → Bool) (pre rest : List α)
    (hpre : ∀ q ∈ pre, p q = false) :
    List.find? p (pre ++ rest) = List.find? p rest := by
  induction pre with
  | nil => rfl
  | cons a l ih =>
      have ha := hpre a (List.mem_cons_self a l)
      simp only [List.cons_append, List.find?, ha]
      exact ih (fun q hq => hpre q (List.mem_cons_of_mem a hq))

/-- C6 amended: the TTL used by `get`, `cleanup_expired` and `get_stats`
is resolved by FIRST match in table (insertion) order — the first table
entry whose pattern occurs in the key wins, not the longest — with the
cache-wide default when no pattern matches. -/
theorem cache_ttl_first_match (c : SimpleCache) (key : String) (now : ℚ) :
    (∀ pre p t post, c.tool_ttls = pre ++ (p, t) :: post →
      strHasSub p key = true →
      (∀ q ∈ pre, strHasSub q.1 key = false) →
      getTtlForKey c key = t) ∧
    ((∀ q ∈ c.tool_ttls, strHasSub q.1 key = false) →
      getTtlForKey c key = c.default_ttl) ∧
    (∀ e, cacheFind c key = some e →
      (cacheGet c key now).1 =
        (if now - e.timestamp > getTtlForKey c key then none else some e.data)) ∧
    ((getStats c now).valid_entries =
      (c.cache.countP (fun kv => now - kv.2.timestamp ≤ getTtlForKey c kv.1) : ℤ)) ∧
    ((cleanupExpired c now).cache =
      c.cache.filter (fun kv => !(now - kv.2.timestamp > getTtlForKey c kv.1))) := by
  refine ⟨?_, ?_, ?_, rfl, rfl⟩
  · intro pre p t post htab hp hpre
    unfold getTtlForKey
    rw [htab, find_append_of_none _ pre _ hpre]
    simp only [List.find?, hp]
  · intro hall
    unfold getTtlForKey
    have : List.find? (fun pt => strHasSub pt.1 key) c.tool_ttls = none :=
      List.find?_eq_none.mpr (by intro q hq; simp [hall q hq])
    rw [this]
  · intro e he
    unfold cacheGet
    rw [he]
    dsimp only
    split <;> rfl

/-- Cache with the ticker/orderbook TTL table and one stored entry. -/
def wCache : SimpleCache :=
  ⟨5, [("ticker", 1), ("orderbook", 1/2)],
   [("orderbook_l1:BTCUSDT", ⟨.num 7, 10⟩)]⟩

theorem cache_ttl_first_match_witness :
    getTtlForKey wCache "orderbook_l1:BTCUSDT" = 1/2 ∧
    (cacheGet wCache "orderbook_l1:BTCUSDT" (10 + 2/5)).1 =
      (if (10 + 2/5 : ℚ) - 10 > getTtlForKey wCache "orderbook_l1:BTCUSDT" then none
       else some (.num 7)) := by
  have h := cache_ttl_first_match wCache "orderbook_l1:BTCUSDT" (10 + 2/5)
  refine ⟨h.1 [("ticker", 1)] "orderbook" (1/2) [] (by with_unfolding_all rfl)
    (by decide) ?_, h.2.2.1 ⟨.num 7, 10⟩ (by with_unfolding_all rfl)⟩
  intro q hq
  rw [List.mem_singleton] at hq
  subst hq
  decide

/-! ## C10: cache statistics invariant -/

/-- C10: `get_stats` always reports `total = valid + expired`, where
`valid` counts exactly the stored entries whose age is at most their
resolved TTL; hence `expired` is never negative. -/
theorem cache_stats_consistent (c : SimpleCache) (now : ℚ) :
    (getStats c now).total_entries =
      (getStats c now).valid_entries + (getStats c now).expired_entries ∧
    (getStats c now).valid_entries =
      (c.cache.countP (fun kv => now - kv.2.timestamp ≤ getTtlForKey c kv.1) : ℤ) ∧
    0 ≤ (getStats c now).expired_entries := by
  have hle : c.cache.countP
      (fun kv => decide (now - kv.2.timestamp ≤ getTtlForKey c kv.1)) ≤ c.cache.length :=
    List.countP_le_length _
  refine ⟨?_, rfl, ?_⟩
  · simp only [getStats]
    omega
  · simp only [getStats]
    omega

end McpGateway
